import Mathlib

/-!
Verification of the tzscheduler core: reactive scheduler state, grid
geometry, initialization precedence, touch-gesture disambiguation,
HTML escaping and the work-hour window.  The application itself ships
as a single `index.html` (not part of the checked-in sources here), so
every definition below is modelled from the written specification of
that file; doc comments record which part of the spec each definition
embeds.
-/

namespace TzScheduler

/-- Modelled from the spec: `TrackedTimezone` — an ordered-sequence element
`{ id, displayName, timezoneId }`; the `id` is an opaque stable identifier,
unique within the sequence (the code that constructs these lives in the
application's `index.html`, absent from the sources). -/
structure TrackedTimezone where
  id : String
  displayName : String
  timezoneId : String
deriving DecidableEq, Repr

/-- Modelled from the spec: the `selectedSlot` component of `SchedulerState` —
`{ timezoneIndex, hour, minuteBucket }`. -/
structure SelectedSlot where
  timezoneIndex : Nat
  hour : Nat
  minuteBucket : Nat
deriving DecidableEq, Repr

/-- Modelled from the spec: `SchedulerState` — ordered timezone sequence,
selected calendar date (ISO string), work-hour window and optional selected
slot (the owning `AppState` module lives in the application's `index.html`,
absent from the sources). -/
structure SchedulerState where
  timezones : List TrackedTimezone
  selectedDate : String
  workHourStart : Nat
  workHourEnd : Nat
  selectedSlot : Option SelectedSlot
deriving DecidableEq, Repr

/-- Modelled from the spec: the error taxonomy entry for invalid reorder
indices (`OutOfRange`). -/
inductive AppError where
  | outOfRange
deriving DecidableEq, Repr

/-- Modelled from the spec: the outcome of one synchronous `AppState`
mutation — the new state, whether subscribers were notified, whether the
state was persisted, and an optional silent error condition. -/
structure StepResult where
  state : SchedulerState
  notified : Bool
  persisted : Bool
  error : Option AppError
deriving DecidableEq, Repr

/-- Modelled from the spec: `AppState.moveTimezone(fromIndex, toIndex)` —
removes the element at `fromIndex` and reinserts it at `toIndex` in the
post-removal sequence (remove-then-insert, not swap); indices outside
`[0, length)` fail with `OutOfRange` and produce no mutation, no notify,
no persist (the implementation lives in the application's `index.html`,
absent from the sources). -/
def moveTimezone (s : SchedulerState) (fromIndex toIndex : Nat) : StepResult :=
  if h : fromIndex < s.timezones.length ∧ toIndex < s.timezones.length then
    let x := s.timezones.get ⟨fromIndex, h.1⟩
    let moved := (s.timezones.eraseIdx fromIndex).insertIdx toIndex x
    { state := { s with timezones := moved },
      notified := true, persisted := true, error := none }
  else
    { state := s, notified := false, persisted := false, error := some AppError.outOfRange }

/-- Helper: inserting an element anywhere (at a position within bounds)
is a permutation of consing it. -/
theorem insertIdx_perm_cons {α : Type _} (x : α) :
    ∀ (n : Nat) (l : List α), n ≤ l.length → (l.insertIdx n x).Perm (x :: l)
  | 0, l, _ => by simp
  | n + 1, [], h => by simp at h
  | n + 1, a :: l, h => by
    have ih := insertIdx_perm_cons x n l (Nat.le_of_succ_le_succ h)
    have h1 : (a :: l).insertIdx (n + 1) x = a :: l.insertIdx n x := rfl
    rw [h1]
    exact (List.Perm.cons a ih).trans (List.Perm.swap x a l)

/-- Helper: a list is a permutation of its `i`-th element consed onto the
list with that element erased. -/
theorem perm_get_cons_eraseIdx {α : Type _} :
    ∀ (l : List α) (i : Nat) (h : i < l.length),
      l.Perm (l.get ⟨i, h⟩ :: l.eraseIdx i)
  | [], i, h => by simp at h
  | a :: l, 0, _ => by simp
  | a :: l, i + 1, h => by
    have ih := perm_get_cons_eraseIdx l i (Nat.lt_of_succ_lt_succ h)
    simpa [List.eraseIdx] using (List.Perm.cons a ih).trans
      (List.Perm.swap (l.get ⟨i, Nat.lt_of_succ_lt_succ h⟩) a (l.eraseIdx i))

/-- Sample tracked timezone used by concrete witnesses. -/
def nyTz : TrackedTimezone :=
  { id := "tz-1", displayName := "New York", timezoneId := "America/New_York" }

/-- Sample tracked timezone used by concrete witnesses. -/
def londonTz : TrackedTimezone :=
  { id := "tz-2", displayName := "London", timezoneId := "Europe/London" }

/-- Sample tracked timezone used by concrete witnesses. -/
def tokyoTz : TrackedTimezone :=
  { id := "tz-3", displayName := "Tokyo", timezoneId := "Asia/Tokyo" }

/-- Sample scheduler state with three tracked timezones, used by concrete
witnesses. -/
def sampleState : SchedulerState :=
  { timezones := [nyTz, londonTz, tokyoTz], selectedDate := "2026-12-25",
    workHourStart := 8, workHourEnd := 17, selectedSlot := none }

/-- C1: for every state whose timezone sequence has length `n` and valid
`fromIndex`, `toIndex` in `[0, n)`, `moveTimezone` succeeds and produces the
remove-then-insert sequence: the result equals erasing at `fromIndex` and
reinserting at `toIndex` of the post-removal list, it keeps the length and
the set of elements (it is a permutation of the input), and the moved
element sits at position `toIndex`, exactly once when the sequence has no
duplicates. -/
theorem moveTimezone_valid_spec (s : SchedulerState) (fromIndex toIndex : Nat)
    (hf : fromIndex < s.timezones.length) (ht : toIndex < s.timezones.length) :
    (moveTimezone s fromIndex toIndex).error = none ∧
    (moveTimezone s fromIndex toIndex).state.timezones
      = (s.timezones.eraseIdx fromIndex).insertIdx toIndex (s.timezones.get ⟨fromIndex, hf⟩) ∧
    ((moveTimezone s fromIndex toIndex).state.timezones).length = s.timezones.length ∧
    ((moveTimezone s fromIndex toIndex).state.timezones).Perm s.timezones ∧
    (∀ a, a ∈ (moveTimezone s fromIndex toIndex).state.timezones ↔ a ∈ s.timezones) ∧
    ((moveTimezone s fromIndex toIndex).state.timezones)[toIndex]?
      = some (s.timezones.get ⟨fromIndex, hf⟩) ∧
    (s.timezones.Nodup →
      ((moveTimezone s fromIndex toIndex).state.timezones).count
        (s.timezones.get ⟨fromIndex, hf⟩) = 1) := by
  have hcond : fromIndex < s.timezones.length ∧ toIndex < s.timezones.length := ⟨hf, ht⟩
  have hstate : (moveTimezone s fromIndex toIndex).state.timezones
      = (s.timezones.eraseIdx fromIndex).insertIdx toIndex
          (s.timezones.get ⟨fromIndex, hf⟩) := by
    simp [moveTimezone, hcond]
  have herr : (moveTimezone s fromIndex toIndex).error = none := by
    simp [moveTimezone, hcond]
  have hlenE : (s.timezones.eraseIdx fromIndex).length = s.timezones.length - 1 :=
    List.length_eraseIdx_of_lt hf
  have htle : toIndex ≤ (s.timezones.eraseIdx fromIndex).length := by omega
  have hperm : ((moveTimezone s fromIndex toIndex).state.timezones).Perm s.timezones := by
    rw [hstate]
    exact (insertIdx_perm_cons _ _ _ htle).trans
      (perm_get_cons_eraseIdx s.timezones fromIndex hf).symm
  have hlen : ((moveTimezone s fromIndex toIndex).state.timezones).length
      = s.timezones.length := hperm.length_eq
  have hat : ((moveTimezone s fromIndex toIndex).state.timezones)[toIndex]?
      = some (s.timezones.get ⟨fromIndex, hf⟩) := by
    rw [hstate]
    have hlt : toIndex < ((s.timezones.eraseIdx fromIndex).insertIdx toIndex
        (s.timezones.get ⟨fromIndex, hf⟩)).length := by
      rw [List.length_insertIdx _ _ htle]; omega
    rw [List.getElem?_eq_getElem hlt]
    rw [List.getElem_insertIdx_self _ _ _ htle]
  refine ⟨herr, hstate, hlen, hperm, fun a => hperm.mem_iff, hat, fun hnd => ?_⟩
  rw [hperm.count_eq]
  exact List.count_eq_one_of_mem hnd (s.timezones.get_mem fromIndex hf)

/-- C1 witness: moving index 2 to index 0 in the three-element sample state
succeeds, yields the rotated sequence, keeps the length and puts the moved
element at position 0. -/
theorem moveTimezone_valid_spec_witness :
    (2 < sampleState.timezones.length ∧ 0 < sampleState.timezones.length) ∧
    (moveTimezone sampleState 2 0).state.timezones = [tokyoTz, nyTz, londonTz] ∧
    (moveTimezone sampleState 2 0).state.timezones.length = sampleState.timezones.length ∧
    (moveTimezone sampleState 2 0).state.timezones[0]?
      = some (sampleState.timezones.get ⟨2, by decide⟩) := by
  refine ⟨⟨by decide, by decide⟩, by decide, ?_, ?_⟩
  · exact (moveTimezone_valid_spec sampleState 2 0 (by decide) (by decide)).2.2.1
  · exact (moveTimezone_valid_spec sampleState 2 0 (by decide) (by decide)).2.2.2.2.2.1

/-- C7: for any `fromIndex` or `toIndex` outside `[0, length)`, `moveTimezone`
fails with the `OutOfRange` condition, leaves the whole `SchedulerState`
unchanged, notifies nothing and persists nothing. -/
theorem moveTimezone_outOfRange_spec (s : SchedulerState) (fromIndex toIndex : Nat)
    (hbad : s.timezones.length ≤ fromIndex ∨ s.timezones.length ≤ toIndex) :
    moveTimezone s fromIndex toIndex =
      { state := s, notified := false, persisted := false,
        error := some AppError.outOfRange } := by
  have hcond : ¬(fromIndex < s.timezones.length ∧ toIndex < s.timezones.length) := by omega
  simp [moveTimezone, hcond]

/-- C7 witness: moving from index 5 in the three-element sample state is out
of range, fully preserves the state, and reports `OutOfRange` without a
notify or a persist. -/
theorem moveTimezone_outOfRange_spec_witness :
    sampleState.timezones.length ≤ 5 ∧
    moveTimezone sampleState 5 0 =
      { state := sampleState, notified := false, persisted := false,
        error := some AppError.outOfRange } :=
  ⟨by decide, moveTimezone_outOfRange_spec sampleState 5 0 (Or.inl (by decide))⟩

/-- Modelled from the spec: the layout orientation of the 24-hour grid. -/
inductive Orientation where
  | horizontal
  | vertical
deriving DecidableEq, Repr

/-- Modelled from the spec: the fixed viewport-width breakpoint below which
the vertical layout may apply (the stylesheet value lives in the
application's `index.html`, absent from the sources; the test suite pins it
under 900px). -/
def verticalBreakpoint : ℚ := 900

/-- Modelled from the spec: `orientationFor(viewportWidth, viewportHeight)` —
`Vertical` exactly when the width is below the fixed breakpoint and the
aspect ratio is portrait (height ≥ width); otherwise `Horizontal`. -/
def orientationFor (viewportWidth viewportHeight : ℚ) : Orientation :=
  if viewportWidth < verticalBreakpoint ∧ viewportWidth ≤ viewportHeight then
    Orientation.vertical
  else Orientation.horizontal

/-- Modelled from the spec: `cellForPosition` — the long axis (the pointer
coordinate passed here) is divided into 24 equal cells of `cellPixelSize`;
the pointer offset is clamped to the grid span, the hour is the cell index,
and the in-cell fraction is bucketed into the four 15-minute quadrants. -/
def cellForPosition (orientation : Orientation)
    (containerOrigin pointerPosition cellPixelSize : ℚ) : Nat × Nat :=
  let offset := pointerPosition - containerOrigin
  let clamped := max 0 (min offset (24 * cellPixelSize))
  let cells := clamped / cellPixelSize
  let hourIndex := min 23 (Int.toNat ⌊cells⌋)
  let frac := cells - (hourIndex : ℚ)
  let minuteBucket :=
    if frac < 1/4 then 0 else if frac < 1/2 then 15 else if frac < 3/4 then 30 else 45
  (hourIndex, minuteBucket)

/-- Modelled from the spec: `pixelsForSlot` — the inverse mapping used to
position the hover and now indicator lines: `hourIndex * cellPixelSize` plus
the minute bucket's fraction of one cell. -/
def pixelsForSlot (orientation : Orientation) (hourIndex minuteBucket : Nat)
    (cellPixelSize : ℚ) : ℚ :=
  (hourIndex : ℚ) * cellPixelSize + ((minuteBucket : ℚ) / 60) * cellPixelSize

/-- Helper: exact value of `cellForPosition` at an in-range position written
as an hour plus an in-cell fraction. -/
theorem cellForPosition_exact (o : Orientation) (origin cs : ℚ) (hr : Nat) (c : ℚ)
    (hh : hr < 24) (hc0 : 0 ≤ c) (hc1 : c < 1) (hcs : 0 < cs) :
    cellForPosition o origin (origin + ((hr : ℚ) + c) * cs) cs
      = (hr, if c < 1/4 then 0 else if c < 1/2 then 15 else if c < 3/4 then 30 else 45) := by
  have hcs0 : cs ≠ 0 := ne_of_gt hcs
  have hr23 : (hr : ℚ) ≤ 23 := by exact_mod_cast Nat.lt_succ_iff.mp hh
  have key : origin + ((hr : ℚ) + c) * cs - origin = ((hr : ℚ) + c) * cs := by ring
  have h0 : (0 : ℚ) ≤ ((hr : ℚ) + c) * cs :=
    mul_nonneg (add_nonneg (Nat.cast_nonneg hr) hc0) hcs.le
  have hlt : ((hr : ℚ) + c) * cs ≤ 24 * cs := by nlinarith
  have hmin : min (((hr : ℚ) + c) * cs) (24 * cs) = ((hr : ℚ) + c) * cs := min_eq_left hlt
  have hmax : max 0 (((hr : ℚ) + c) * cs) = ((hr : ℚ) + c) * cs := max_eq_right h0
  have hdiv : ((hr : ℚ) + c) * cs / cs = (hr : ℚ) + c := mul_div_cancel_right₀ _ hcs0
  have hfloor : ⌊(hr : ℚ) + c⌋ = (hr : ℤ) := by
    rw [Int.floor_eq_iff]
    constructor
    · push_cast; linarith
    · push_cast; linarith
  have htoNat : (hr : ℤ).toNat = hr := Int.toNat_natCast hr
  have hminN : min 23 hr = hr := min_eq_right (by omega)
  have hfrac : (hr : ℚ) + c - (hr : ℚ) = c := by ring
  simp only [cellForPosition]
  rw [key, hmin, hmax, hdiv, hfloor, htoNat, hminN, hfrac]

/-- C2: for every orientation, hour in `0..23`, minute bucket in
`{0,15,30,45}` and positive cell size, `cellForPosition` applied to the
offset produced by `pixelsForSlot` (from any container origin) recovers the
same `(hourIndex, minuteBucket)` pair, and `pixelsForSlot` maps the `:30`
bucket to `hourIndex * cellPixelSize + 0.5 * cellPixelSize`. -/
theorem pixelsForSlot_cellForPosition_inverse (o : Orientation) (origin cs : ℚ)
    (hourIndex minuteBucket : Nat) (hh : hourIndex < 24)
    (hb : minuteBucket = 0 ∨ minuteBucket = 15 ∨ minuteBucket = 30 ∨ minuteBucket = 45)
    (hcs : 0 < cs) :
    cellForPosition o origin (origin + pixelsForSlot o hourIndex minuteBucket cs) cs
      = (hourIndex, minuteBucket) ∧
    pixelsForSlot o hourIndex 30 cs = (hourIndex : ℚ) * cs + (1/2) * cs := by
  constructor
  · rcases hb with hb | hb | hb | hb <;> subst hb
    · have h := cellForPosition_exact o origin cs hourIndex 0 hh le_rfl (by norm_num) hcs
      have hps : origin + pixelsForSlot o hourIndex 0 cs
          = origin + ((hourIndex : ℚ) + 0) * cs := by
        unfold pixelsForSlot; push_cast; ring
      rw [hps, h]; norm_num
    · have h := cellForPosition_exact o origin cs hourIndex (1/4) hh
        (by norm_num) (by norm_num) hcs
      have hps : origin + pixelsForSlot o hourIndex 15 cs
          = origin + ((hourIndex : ℚ) + 1/4) * cs := by
        unfold pixelsForSlot; push_cast; ring
      rw [hps, h]; norm_num
    · have h := cellForPosition_exact o origin cs hourIndex (1/2) hh
        (by norm_num) (by norm_num) hcs
      have hps : origin + pixelsForSlot o hourIndex 30 cs
          = origin + ((hourIndex : ℚ) + 1/2) * cs := by
        unfold pixelsForSlot; push_cast; ring
      rw [hps, h]; norm_num
    · have h := cellForPosition_exact o origin cs hourIndex (3/4) hh
        (by norm_num) (by norm_num) hcs
      have hps : origin + pixelsForSlot o hourIndex 45 cs
          = origin + ((hourIndex : ℚ) + 3/4) * cs := by
        unfold pixelsForSlot; push_cast; ring
      rw [hps, h]; norm_num
  · unfold pixelsForSlot; push_cast; ring

/-- C2 witness: at hour 8, bucket `:30`, cell size 40 and origin 0, the
round trip recovers `(8, 30)` and the pixel offset is `8*40 + 0.5*40`. -/
theorem pixelsForSlot_cellForPosition_inverse_witness :
    ((8 : Nat) < 24 ∧ (0 : ℚ) < 40) ∧
    cellForPosition Orientation.horizontal 0
      (0 + pixelsForSlot Orientation.horizontal 8 30 40) 40 = (8, 30) ∧
    pixelsForSlot Orientation.horizontal 8 30 40 = (8 : ℚ) * 40 + (1/2) * 40 := by
  refine ⟨⟨by norm_num, by norm_num⟩, ?_, ?_⟩
  · exact (pixelsForSlot_cellForPosition_inverse Orientation.horizontal 0 40 8 30
      (by norm_num) (by norm_num) (by norm_num)).1
  · exact (pixelsForSlot_cellForPosition_inverse Orientation.horizontal 0 40 8 30
      (by norm_num) (by norm_num) (by norm_num)).2

/-- C3: within a cell the fractional position maps to the four 15-minute
quadrants (`[0,.25) → :00`, `[.25,.5) → :15`, `[.5,.75) → :30`,
`[.75,1) → :45`, with the closed top end reached only through clamping);
positions left of the grid clamp to hour 0, positions at or past
`24 * cellPixelSize` clamp to hour 23, and the returned hour is always in
range with a bucket among `{0,15,30,45}`. -/
theorem cellForPosition_buckets_clamps (o : Orientation) (origin ptr cs : ℚ)
    (hr : Nat) (c : ℚ) (hh : hr < 24) (hc0 : 0 ≤ c) (hc1 : c < 1) (hcs : 0 < cs) :
    (cellForPosition o origin (origin + ((hr : ℚ) + c) * cs) cs
      = (hr, if c < 1/4 then 0 else if c < 1/2 then 15 else if c < 3/4 then 30 else 45)) ∧
    (ptr - origin < 0 → cellForPosition o origin ptr cs = (0, 0)) ∧
    (24 * cs ≤ ptr - origin → cellForPosition o origin ptr cs = (23, 45)) ∧
    (cellForPosition o origin ptr cs).1 < 24 ∧
    ((cellForPosition o origin ptr cs).2 = 0 ∨ (cellForPosition o origin ptr cs).2 = 15 ∨
      (cellForPosition o origin ptr cs).2 = 30 ∨ (cellForPosition o origin ptr cs).2 = 45) := by
  have hcs0 : cs ≠ 0 := ne_of_gt hcs
  refine ⟨cellForPosition_exact o origin cs hr c hh hc0 hc1 hcs, ?_, ?_, ?_, ?_⟩
  · intro hneg
    have hmin : min (ptr - origin) (24 * cs) = ptr - origin :=
      min_eq_left (by nlinarith)
    have hmax : max 0 (ptr - origin) = 0 := max_eq_left hneg.le
    simp only [cellForPosition]
    rw [hmin, hmax]
    norm_num
  · intro hbig
    have hmin : min (ptr - origin) (24 * cs) = 24 * cs := min_eq_right hbig
    have hmax : max 0 (24 * cs) = 24 * cs := max_eq_right (by nlinarith)
    have hdiv : 24 * cs / cs = (24 : ℚ) := by
      rw [mul_div_assoc, div_self hcs0, mul_one]
    have hfloor : ⌊(24 : ℚ)⌋ = (24 : ℤ) := by norm_num
    simp only [cellForPosition]
    rw [hmin, hmax, hdiv, hfloor]
    norm_num
  · simp only [cellForPosition]
    exact Nat.lt_succ_of_le (min_le_left _ _)
  · simp only [cellForPosition]
    split
    · exact Or.inl rfl
    · split
      · exact Or.inr (Or.inl rfl)
      · split
        · exact Or.inr (Or.inr (Or.inl rfl))
        · exact Or.inr (Or.inr (Or.inr rfl))

/-- C3 witness: at cell size 40 the position half-way through hour 8 buckets
to `:30`, a pointer 5px left of the grid clamps to hour 0 and a pointer far
past the 960px grid end clamps to hour 23 with bucket `:45`. -/
theorem cellForPosition_buckets_clamps_witness :
    ((8 : Nat) < 24 ∧ (0 : ℚ) ≤ 1/2 ∧ (1/2 : ℚ) < 1 ∧ (0 : ℚ) < 40) ∧
    cellForPosition Orientation.horizontal 0 340 40 = (8, 30) ∧
    cellForPosition Orientation.horizontal 0 (-5) 40 = (0, 0) ∧
    cellForPosition Orientation.horizontal 0 1000 40 = (23, 45) := by
  have h1 := cellForPosition_buckets_clamps Orientation.horizontal 0 (-5) 40 8 (1/2)
    (by norm_num) (by norm_num) (by norm_num) (by norm_num)
  have h2 := cellForPosition_buckets_clamps Orientation.horizontal 0 1000 40 8 (1/2)
    (by norm_num) (by norm_num) (by norm_num) (by norm_num)
  refine ⟨⟨by norm_num, by norm_num, by norm_num, by norm_num⟩, ?_, ?_, ?_⟩
  · have h := h1.1
    norm_num at h
    exact h
  · exact h1.2.1 (by norm_num)
  · exact h2.2.2.1 (by norm_num)

/-- C4: `orientationFor` returns `Vertical` exactly when the width is below
the fixed breakpoint and the aspect ratio is portrait (height ≥ width); a
width below the breakpoint with a landscape aspect ratio yields
`Horizontal`. -/
theorem orientationFor_spec (w h : ℚ) :
    (orientationFor w h = Orientation.vertical ↔ (w < verticalBreakpoint ∧ w ≤ h)) ∧
    (w < verticalBreakpoint → h < w → orientationFor w h = Orientation.horizontal) := by
  constructor
  · by_cases hc : w < verticalBreakpoint ∧ w ≤ h
    · simp [orientationFor, hc]
    · simp [orientationFor, hc]
  · intro h1 h2
    have hc : ¬(w < verticalBreakpoint ∧ w ≤ h) := by
      intro hx; linarith [hx.2]
    simp [orientationFor, hc]

/-- C4 witness: an 800×500 viewport is below the 900px breakpoint but
landscape, so the orientation resolves to `Horizontal`. -/
theorem orientationFor_spec_witness :
    ((800 : ℚ) < verticalBreakpoint ∧ (500 : ℚ) < 800) ∧
    orientationFor 800 500 = Orientation.horizontal :=
  ⟨⟨by norm_num [verticalBreakpoint], by norm_num⟩,
    (orientationFor_spec 800 500).2 (by norm_num [verticalBreakpoint]) (by norm_num)⟩

/-- Modelled from the spec: the URL parameter payload read at startup — the
repeatable `tz` list (already decoded into tracked timezones) and the
optional ISO `date`. -/
structure UrlParams where
  tzList : List TrackedTimezone
  date : Option String
deriving DecidableEq, Repr

/-- Modelled from the spec: timezone-list precedence on load — a non-empty
URL `tz` list overrides the persisted list entirely (no merging); otherwise
the persisted list (or the empty list when no persisted state exists) is
used (the loader lives in the application's `index.html`, absent from the
sources). -/
def resolveTimezonesOnLoad (persisted : Option (List TrackedTimezone))
    (urlTz : List TrackedTimezone) : List TrackedTimezone :=
  if urlTz.isEmpty then persisted.getD [] else urlTz

/-- Modelled from the spec: date precedence on load — a URL `date` overrides
the default-today date regardless of the `tz` parameters; its absence yields
today, recomputed at load time. -/
def resolveDateOnLoad (urlDate : Option String) (today : String) : String :=
  urlDate.getD today

/-- Modelled from the spec: initialization — construct the state from the
persisted key-value data and the URL parameters, with the default 8–17
work-hour window and no selected slot. -/
def initialState (persisted : Option (List TrackedTimezone)) (url : UrlParams)
    (today : String) : SchedulerState :=
  { timezones := resolveTimezonesOnLoad persisted url.tzList,
    selectedDate := resolveDateOnLoad url.date today,
    workHourStart := 8, workHourEnd := 17, selectedSlot := none }

/-- Sample URL parameter payload used by concrete witnesses. -/
def sampleUrl : UrlParams := { tzList := [londonTz], date := some "2026-12-25" }

/-- C5: initialization precedence — a non-empty URL `tz` list is taken
verbatim and the persisted list is ignored entirely; with no URL `tz` the
persisted list (or the empty list) is used; a URL `date` always wins over
the default-today date and its absence yields today. -/
theorem initialState_precedence (persisted : Option (List TrackedTimezone))
    (url : UrlParams) (today : String) :
    (url.tzList ≠ [] → (initialState persisted url today).timezones = url.tzList) ∧
    (url.tzList = [] → (initialState persisted url today).timezones = persisted.getD []) ∧
    (∀ d, url.date = some d → (initialState persisted url today).selectedDate = d) ∧
    (url.date = none → (initialState persisted url today).selectedDate = today) := by
  refine ⟨?_, ?_, ?_, ?_⟩
  · intro hne
    simp [initialState, resolveTimezonesOnLoad, hne]
  · intro hnil
    simp [initialState, resolveTimezonesOnLoad, hnil]
  · intro d hd
    simp [initialState, resolveDateOnLoad, hd]
  · intro hnone
    simp [initialState, resolveDateOnLoad, hnone]

/-- C5 witness: persisted `[Tokyo]` plus URL `tz=[London]` and
`date=2026-12-25` loads exactly `[London]` with the URL date, ignoring both
the persisted list and the today default. -/
theorem initialState_precedence_witness :
    sampleUrl.tzList ≠ [] ∧
    (initialState (some [tokyoTz]) sampleUrl "2026-01-01").timezones = [londonTz] ∧
    (initialState (some [tokyoTz]) sampleUrl "2026-01-01").selectedDate = "2026-12-25" := by
  refine ⟨by decide, ?_, ?_⟩
  · exact (initialState_precedence (some [tokyoTz]) sampleUrl "2026-01-01").1 (by decide)
  · exact (initialState_precedence (some [tokyoTz]) sampleUrl "2026-01-01").2.2.1
      "2026-12-25" rfl

/-- Modelled from the spec: the displayed relative offset, in hours, of the
`i`-th tracked timezone — the difference between its UTC offset in minutes
(the TimeService capability, abstracted as a function from timezone
identifier to minutes) and the reference timezone's offset, divided by 60.
The reference is the element at sequence index 0. -/
def displayedOffsetHours (offsetMinutes : String → ℤ) (timezones : List TrackedTimezone)
    (i : Nat) : ℚ :=
  match timezones with
  | [] => 0
  | ref :: _ =>
    ((offsetMinutes (timezones.getD i ref).timezoneId : ℚ)
      - (offsetMinutes ref.timezoneId : ℚ)) / 60

/-- Modelled from the spec: `AppState.removeTimezone(id)` — removes the
entry with matching id and triggers notify + persist; a missing id is a
no-op, not an error (the implementation lives in the application's
`index.html`, absent from the sources). -/
def removeTimezone (s : SchedulerState) (tzId : String) : StepResult :=
  if s.timezones.any (fun tz => tz.id == tzId) then
    { state := { s with timezones := s.timezones.filter (fun tz => tz.id != tzId) },
      notified := true, persisted := true, error := none }
  else
    { state := s, notified := false, persisted := false, error := none }

/-- Helper: the reference timezone (index 0) always displays offset 0. -/
theorem displayedOffsetHours_zero (f : String → ℤ) (l : List TrackedTimezone) :
    displayedOffsetHours f l 0 = 0 := by
  cases l with
  | nil => rfl
  | cons ref rest => simp [displayedOffsetHours]

/-- C6: the element at index 0 is the reference — its displayed offset is 0;
every other tracked timezone displays `(itsOffset - referenceOffset) / 60`;
and removing the reference promotes the element previously at index 1 to
reference (displayed offset 0 again) through nothing but the normal
notify-and-persist step. -/
theorem referenceOffset_spec (f : String → ℤ) (s : SchedulerState)
    (ref : TrackedTimezone) (rest : List TrackedTimezone)
    (hs : s.timezones = ref :: rest) (hid : ∀ tz ∈ rest, tz.id ≠ ref.id) :
    displayedOffsetHours f s.timezones 0 = 0 ∧
    (∀ i (hi : i < rest.length),
      displayedOffsetHours f s.timezones (i + 1)
        = ((f (rest.get ⟨i, hi⟩).timezoneId : ℚ) - (f ref.timezoneId : ℚ)) / 60) ∧
    (removeTimezone s ref.id).state.timezones = rest ∧
    (removeTimezone s ref.id).error = none ∧
    (removeTimezone s ref.id).notified = true ∧
    displayedOffsetHours f (removeTimezone s ref.id).state.timezones 0 = 0 := by
  have hany : s.timezones.any (fun tz => tz.id == ref.id) = true := by
    rw [hs]
    simp
  have hfilter : s.timezones.filter (fun tz => tz.id != ref.id) = rest := by
    rw [hs, List.filter_cons]
    have hhead : (ref.id != ref.id) = false := by simp
    rw [hhead]
    simp only [Bool.false_eq_true, if_false]
    exact List.filter_eq_self.mpr (fun tz htz => by
      simpa using hid tz htz)
  have hremoved : (removeTimezone s ref.id).state.timezones = rest := by
    simp [removeTimezone, hany, hfilter]
  refine ⟨displayedOffsetHours_zero f s.timezones, ?_, hremoved, ?_, ?_, ?_⟩
  · intro i hi
    rw [hs]
    simp only [displayedOffsetHours, List.getD_cons_succ]
    rw [List.getD_eq_get rest ref hi]
  · simp [removeTimezone, hany]
  · simp [removeTimezone, hany]
  · rw [hremoved]
    exact displayedOffsetHours_zero f rest

/-- Sample UTC-offset table (minutes east of UTC, winter values) used by the
concrete witnesses. -/
def sampleOffsets : String → ℤ :=
  fun tz => if tz = "America/New_York" then -300
    else if tz = "Europe/London" then 0
    else if tz = "Asia/Tokyo" then 540
    else 0

/-- C6 witness: in the three-element sample state the New York reference
displays 0, London displays `(0 - (-300)) / 60 = +5`, and removing the
reference leaves London as the new reference with displayed offset 0. -/
theorem referenceOffset_spec_witness :
    sampleState.timezones = nyTz :: [londonTz, tokyoTz] ∧
    displayedOffsetHours sampleOffsets sampleState.timezones 0 = 0 ∧
    displayedOffsetHours sampleOffsets sampleState.timezones 1 = 5 ∧
    (removeTimezone sampleState nyTz.id).state.timezones = [londonTz, tokyoTz] ∧
    displayedOffsetHours sampleOffsets
      (removeTimezone sampleState nyTz.id).state.timezones 0 = 0 := by
  have h := referenceOffset_spec sampleOffsets sampleState nyTz [londonTz, tokyoTz]
    rfl (by decide)
  refine ⟨rfl, h.1, ?_, h.2.2.1, h.2.2.2.2.2⟩
  have h1 := h.2.1 0 (by decide)
  rw [h1]
  show ((sampleOffsets "Europe/London" : ℚ) - (sampleOffsets "America/New_York" : ℚ)) / 60 = 5
  have e1 : sampleOffsets "Europe/London" = 0 := by decide
  have e2 : sampleOffsets "America/New_York" = -300 := by decide
  rw [e1, e2]
  norm_num

/-- Modelled from the spec: a grid cell at `hourIndex` is marked as a work
hour exactly when `workHourStart ≤ hourIndex < workHourEnd` (end-exclusive
window); the default window is 8–17. -/
def isWorkHour (s : SchedulerState) (hourIndex : Nat) : Bool :=
  decide (s.workHourStart ≤ hourIndex) && decide (hourIndex < s.workHourEnd)

/-- C10: the work-hour window is end-exclusive — a cell is marked iff
`workHourStart ≤ h < workHourEnd`; with the default 8–17 window exactly the
nine hours 8..16 are marked and hour 17 is not. -/
theorem workHour_window_spec (s : SchedulerState) (hourIndex : Nat) :
    (isWorkHour s hourIndex = true
      ↔ (s.workHourStart ≤ hourIndex ∧ hourIndex < s.workHourEnd)) ∧
    (List.range 24).filter (fun k => isWorkHour sampleState k)
      = [8, 9, 10, 11, 12, 13, 14, 15, 16] ∧
    isWorkHour sampleState 17 = false := by
  refine ⟨?_, by decide, by decide⟩
  simp [isWorkHour]

/-- Modelled from the spec: HTML escaping of one character — the
HTML-significant characters are replaced by entity references so a decoded
display name is rendered as text, never as markup (the rendering code lives
in the application's `index.html`, absent from the sources). -/
def escapeHtmlChar (c : Char) : List Char :=
  if c = '<' then "&lt;".data
  else if c = '>' then "&gt;".data
  else if c = '&' then "&amp;".data
  else if c = '"' then "&quot;".data
  else [c]

/-- Modelled from the spec: HTML escaping of a character sequence. -/
def escapeChars : List Char → List Char
  | [] => []
  | c :: cs => escapeHtmlChar c ++ escapeChars cs

/-- Modelled from the spec: HTML escaping of a display name before it is
shown in the UI. -/
def escapeHtml (s : String) : String := String.mk (escapeChars s.data)

/-- C9: the escaped rendering of a display name contains no raw `<` or `>`
character, so the name can never become live markup; the attack payload from
the test suite renders with its angle brackets as escaped text. -/
theorem escapeHtml_never_markup (s : String) :
    (escapeHtml s).data.all (fun c => c != '<' && c != '>') = true ∧
    escapeHtml "<img src=x onerror=alert(1)>" = "&lt;img src=x onerror=alert(1)&gt;" := by
  constructor
  · show (escapeChars s.data).all (fun c => c != '<' && c != '>') = true
    induction s.data with
    | nil => rfl
    | cons c cs ih =>
      simp only [escapeChars, List.all_append, ih, Bool.and_true]
      unfold escapeHtmlChar
      split_ifs with h1 h2 h3 h4
      · decide
      · decide
      · decide
      · decide
      · simp [h1, h2]
  · rfl

/-- Modelled from the spec: configuration of the touch-gesture state
machine — the hold-timer threshold (≈300ms), the scroll-intent horizontal
distance threshold (≈10px) and the grid geometry used to snap slots. -/
structure TouchConfig where
  holdThresholdMs : ℚ
  moveThresholdPx : ℚ
  origin : ℚ
  cellPixelSize : ℚ
deriving DecidableEq, Repr

/-- Modelled from the spec: the events driving the gesture machine; `timer t`
is the armed hold timer firing at absolute time `t`. -/
inductive TouchEvent where
  | start (x t : ℚ)
  | move (x t : ℚ)
  | timer (t : ℚ)
  | touchend (x t : ℚ)
deriving DecidableEq, Repr

/-- Modelled from the spec: the phases of the gesture state machine
(`Idle → Holding-Touch → scroll or hold-to-preview`). -/
inductive TouchPhase where
  | idle
  | pending (startX startT : ℚ)
  | scrolling
  | previewing (slot : Nat × Nat)
deriving DecidableEq, Repr

/-- Modelled from the spec: the transient touch UI — machine phase, hover
line visibility, and the snapped slot whose time-summary view is open, if
any. Never persisted. -/
structure TouchUI where
  phase : TouchPhase
  hoverLineVisible : Bool
  summaryOpen : Option (Nat × Nat)
deriving DecidableEq, Repr

/-- Modelled from the spec: the idle initial touch UI. -/
def initTouchUI : TouchUI :=
  { phase := TouchPhase.idle, hoverLineVisible := false, summaryOpen := none }

/-- Modelled from the spec: one transition of the touch-gesture machine.
`touchstart` arms the hold timer; a `touchmove` whose horizontal travel
exceeds the threshold before the timer fires classifies the gesture as a
scroll (the hover line never activates); the timer firing first activates
hold-to-preview with the snapped slot; in preview, `touchmove` re-snaps the
slot live and `touchend` opens the time-summary view. -/
def touchStep (cfg : TouchConfig) (ui : TouchUI) (e : TouchEvent) : TouchUI :=
  match ui.phase, e with
  | TouchPhase.idle, TouchEvent.start x t =>
      { ui with phase := TouchPhase.pending x t }
  | TouchPhase.pending x0 t0, TouchEvent.timer t =>
      if t0 + cfg.holdThresholdMs ≤ t then
        { ui with
          phase := TouchPhase.previewing
            (cellForPosition Orientation.horizontal cfg.origin x0 cfg.cellPixelSize),
          hoverLineVisible := true }
      else ui
  | TouchPhase.pending x0 t0, TouchEvent.move x t =>
      if t0 + cfg.holdThresholdMs ≤ t then
        { ui with
          phase := TouchPhase.previewing
            (cellForPosition Orientation.horizontal cfg.origin x cfg.cellPixelSize),
          hoverLineVisible := true }
      else if cfg.moveThresholdPx < |x - x0| then
        { ui with phase := TouchPhase.scrolling, hoverLineVisible := false }
      else ui
  | TouchPhase.pending _ t0, TouchEvent.touchend x t =>
      if t0 + cfg.holdThresholdMs ≤ t then
        { phase := TouchPhase.idle, hoverLineVisible := false,
          summaryOpen :=
            some (cellForPosition Orientation.horizontal cfg.origin x cfg.cellPixelSize) }
      else { ui with phase := TouchPhase.idle, hoverLineVisible := false }
  | TouchPhase.scrolling, TouchEvent.touchend _ _ =>
      { ui with phase := TouchPhase.idle }
  | TouchPhase.previewing _, TouchEvent.move x _ =>
      { ui with
        phase := TouchPhase.previewing
          (cellForPosition Orientation.horizontal cfg.origin x cfg.cellPixelSize),
        hoverLineVisible := true }
  | TouchPhase.previewing slot, TouchEvent.touchend _ _ =>
      { phase := TouchPhase.idle, hoverLineVisible := false, summaryOpen := some slot }
  | _, _ => ui

/-- Modelled from the spec: run the gesture machine over a sequence of
events starting from the idle UI. -/
def touchRun (cfg : TouchConfig) (events : List TouchEvent) : TouchUI :=
  events.foldl (touchStep cfg) initTouchUI

/-- Helper: once a gesture is classified as a scroll, any further touchmove
events leave the touch UI untouched — in particular the hover line can
never activate for the rest of the gesture. -/
theorem touchStep_scroll_absorb (cfg : TouchConfig) :
    ∀ (moves : List TouchEvent) (ui : TouchUI), ui.phase = TouchPhase.scrolling →
      (∀ e ∈ moves, ∃ x t, e = TouchEvent.move x t) →
      moves.foldl (touchStep cfg) ui = ui := by
  intro moves
  induction moves with
  | nil => intro ui _ _; rfl
  | cons e es ih =>
    intro ui hph hm
    obtain ⟨x, t, rfl⟩ := hm e (List.mem_cons_self e es)
    have hstep : touchStep cfg ui (TouchEvent.move x t) = ui := by
      simp [touchStep, hph]
    rw [List.foldl_cons, hstep]
    exact ih ui hph (fun e he => hm e (List.mem_cons_of_mem _ he))

/-- C8: gesture disambiguation — when a `touchmove` whose horizontal travel
exceeds the threshold arrives before the hold timer fires, the gesture is
classified as a scroll: the hover line is not shown, no summary opens, and
any number of further touchmoves leave it that way; when instead the hold
timer fires first, the hover line activates, a subsequent `touchmove`
re-snaps the slot, and `touchend` after the successful hold opens the
time-summary view. -/
theorem touchGesture_disambiguation (cfg : TouchConfig)
    (x0 t0 x1 t1 tf xe te : ℚ) (moves : List TouchEvent)
    (hm : ∀ e ∈ moves, ∃ x t, e = TouchEvent.move x t)
    (hquick : t1 < t0 + cfg.holdThresholdMs)
    (hswipe : cfg.moveThresholdPx < |x1 - x0|)
    (hhold : t0 + cfg.holdThresholdMs ≤ tf) :
    (touchRun cfg ([TouchEvent.start x0 t0, TouchEvent.move x1 t1] ++ moves)).phase
        = TouchPhase.scrolling ∧
    (touchRun cfg ([TouchEvent.start x0 t0, TouchEvent.move x1 t1] ++ moves)).hoverLineVisible
        = false ∧
    (touchRun cfg ([TouchEvent.start x0 t0, TouchEvent.move x1 t1] ++ moves)).summaryOpen
        = none ∧
    (touchRun cfg [TouchEvent.start x0 t0, TouchEvent.timer tf]).hoverLineVisible = true ∧
    (touchRun cfg [TouchEvent.start x0 t0, TouchEvent.timer tf]).phase
        = TouchPhase.previewing
            (cellForPosition Orientation.horizontal cfg.origin x0 cfg.cellPixelSize) ∧
    (touchRun cfg [TouchEvent.start x0 t0, TouchEvent.timer tf,
        TouchEvent.move x1 t1]).phase
        = TouchPhase.previewing
            (cellForPosition Orientation.horizontal cfg.origin x1 cfg.cellPixelSize) ∧
    (touchRun cfg [TouchEvent.start x0 t0, TouchEvent.timer tf, TouchEvent.move x1 t1,
        TouchEvent.touchend xe te]).summaryOpen
        = some (cellForPosition Orientation.horizontal cfg.origin x1 cfg.cellPixelSize) := by
  have hnot : ¬ (t0 + cfg.holdThresholdMs ≤ t1) := not_le.mpr hquick
  have s1 : touchStep cfg initTouchUI (TouchEvent.start x0 t0)
      = { phase := TouchPhase.pending x0 t0, hoverLineVisible := false,
          summaryOpen := none } := rfl
  have s2 : touchStep cfg
      { phase := TouchPhase.pending x0 t0, hoverLineVisible := false, summaryOpen := none }
      (TouchEvent.move x1 t1)
      = { phase := TouchPhase.scrolling, hoverLineVisible := false,
          summaryOpen := none } := by
    simp [touchStep, hnot, hswipe]
  have hscroll : touchRun cfg ([TouchEvent.start x0 t0, TouchEvent.move x1 t1] ++ moves)
      = { phase := TouchPhase.scrolling, hoverLineVisible := false, summaryOpen := none } := by
    unfold touchRun
    rw [List.foldl_append, List.foldl_cons, List.foldl_cons, List.foldl_nil, s1, s2]
    exact touchStep_scroll_absorb cfg moves _ rfl hm
  have p1 : touchStep cfg
      { phase := TouchPhase.pending x0 t0, hoverLineVisible := false, summaryOpen := none }
      (TouchEvent.timer tf)
      = { phase := TouchPhase.previewing
            (cellForPosition Orientation.horizontal cfg.origin x0 cfg.cellPixelSize),
          hoverLineVisible := true, summaryOpen := none } := by
    simp [touchStep, hhold]
  have hpreview : touchRun cfg [TouchEvent.start x0 t0, TouchEvent.timer tf]
      = { phase := TouchPhase.previewing
            (cellForPosition Orientation.horizontal cfg.origin x0 cfg.cellPixelSize),
          hoverLineVisible := true, summaryOpen := none } := by
    unfold touchRun
    rw [List.foldl_cons, List.foldl_cons, List.foldl_nil, s1, p1]
  have p2 : touchStep cfg
      { phase := TouchPhase.previewing
          (cellForPosition Orientation.horizontal cfg.origin x0 cfg.cellPixelSize),
        hoverLineVisible := true, summaryOpen := none }
      (TouchEvent.move x1 t1)
      = { phase := TouchPhase.previewing
            (cellForPosition Orientation.horizontal cfg.origin x1 cfg.cellPixelSize),
          hoverLineVisible := true, summaryOpen := none } := rfl
  have hpreview2 : touchRun cfg
      [TouchEvent.start x0 t0, TouchEvent.timer tf, TouchEvent.move x1 t1]
      = { phase := TouchPhase.previewing
            (cellForPosition Orientation.horizontal cfg.origin x1 cfg.cellPixelSize),
          hoverLineVisible := true, summaryOpen := none } := by
    unfold touchRun
    rw [List.foldl_cons, List.foldl_cons, List.foldl_cons, List.foldl_nil, s1, p1, p2]
  have p3 : touchStep cfg
      { phase := TouchPhase.previewing
          (cellForPosition Orientation.horizontal cfg.origin x1 cfg.cellPixelSize),
        hoverLineVisible := true, summaryOpen := none }
      (TouchEvent.touchend xe te)
      = { phase := TouchPhase.idle, hoverLineVisible := false,
          summaryOpen :=
            some (cellForPosition Orientation.horizontal cfg.origin x1 cfg.cellPixelSize) } :=
    rfl
  have hsummary : touchRun cfg [TouchEvent.start x0 t0, TouchEvent.timer tf,
      TouchEvent.move x1 t1, TouchEvent.touchend xe te]
      = { phase := TouchPhase.idle, hoverLineVisible := false,
          summaryOpen :=
            some (cellForPosition Orientation.horizontal cfg.origin x1 cfg.cellPixelSize) } := by
    unfold touchRun
    rw [List.foldl_cons, List.foldl_cons, List.foldl_cons, List.foldl_cons, List.foldl_nil,
      s1, p1, p2, p3]
  rw [hscroll, hpreview, hpreview2, hsummary]
  exact ⟨rfl, rfl, rfl, rfl, rfl, rfl, rfl⟩

/-- Default gesture configuration (300ms hold, 10px scroll threshold, 40px
cells from origin 0) used by the concrete witness. -/
def defaultTouchConfig : TouchConfig :=
  { holdThresholdMs := 300, moveThresholdPx := 10, origin := 0, cellPixelSize := 40 }

/-- C8 witness: a 50px touchmove 50ms after touchstart classifies the
gesture as a scroll with the hover line hidden, while waiting 350ms for the
hold timer activates the hover line. -/
theorem touchGesture_disambiguation_witness :
    ((50 : ℚ) < 0 + defaultTouchConfig.holdThresholdMs ∧
      defaultTouchConfig.moveThresholdPx < |(150 : ℚ) - 100| ∧
      (0 : ℚ) + defaultTouchConfig.holdThresholdMs ≤ 350) ∧
    (touchRun defaultTouchConfig [TouchEvent.start 100 0, TouchEvent.move 150 50]).phase
        = TouchPhase.scrolling ∧
    (touchRun defaultTouchConfig
        [TouchEvent.start 100 0, TouchEvent.move 150 50]).hoverLineVisible = false ∧
    (touchRun defaultTouchConfig
        [TouchEvent.start 100 0, TouchEvent.timer 350]).hoverLineVisible = true := by
  have h := touchGesture_disambiguation defaultTouchConfig 100 0 150 50 350 150 400 []
    (by simp) (by norm_num [defaultTouchConfig]) (by norm_num [defaultTouchConfig])
    (by norm_num [defaultTouchConfig])
  refine ⟨⟨by norm_num [defaultTouchConfig], by norm_num [defaultTouchConfig],
    by norm_num [defaultTouchConfig]⟩, ?_, ?_, h.2.2.2.1⟩
  · simpa using h.1
  · simpa using h.2.1

end TzScheduler
